import Mathlib

/-!
Verification development for the reactive persistent storage layer of the
Revenge repository (`src/core/vendetta/storage.ts`).

The JavaScript object graph is shallowly embedded as a heap of numbered
objects.  A heap object is either a plain data object (an association list
from string property names to values) or a `Proxy` created by
`createProxy.createProxy(target, path)`, remembering its target address and
its path from the proxy root.  JavaScript values are primitives, `null`,
`undefined`, or references into the heap.

The three proxy traps (`get`, `set`, `deleteProperty`) are embedded as
fuel-indexed interpreters: a member access on an address dispatches on
whether the heap object there is plain (direct property access, as in the
source where `target` is a raw object) or itself a proxy (the access runs
that proxy's trap, exactly as JavaScript does when a proxy's target is
another proxy).  Fuel only bounds the proxy-chain depth; `Res.out` marks
exhaustion and never occurs in the runs we reason about.
-/

/-- JavaScript values: `undefined`, `null`, primitives, or a reference to a
heap object.  `typeof v === "object"` holds exactly for `null` and object
references (functions do not occur in stored documents). -/
inductive JSVal where
  | undefined
  | null
  | bool (b : Bool)
  | num (n : Int)
  | str (s : String)
  | ref (a : Nat)
deriving DecidableEq, Repr

/-- `typeof v === "object"` for the embedded values. -/
def typeofObject : JSVal → Bool
  | .null => true
  | .ref _ => true
  | _ => false

/-- A heap object: a plain data object (association list of fields, in
insertion order, as JavaScript objects preserve it) or a proxy created by
the inner `createProxy(target, path)` of `storage.ts`. -/
inductive HObj where
  | plain (fields : List (String × JSVal))
  | prox (target : Nat) (path : List String)
deriving DecidableEq, Repr

/-- Event kinds of the change emitter. -/
inductive EventKind where
  | GET
  | SET
  | DEL
deriving DecidableEq, Repr

/-- An emitted event: `{ parent, path, value }` plus its kind.  `parent` is
always the session's `parentTarget` (the raw root object). -/
structure Event where
  kind : EventKind
  parent : Nat
  path : List String
  value : JSVal
deriving DecidableEq, Repr

/-- State of one `createProxy` session: the heap, the `childrens` WeakMap
(underlying object address to proxy address), the `proxiedChildrenSet`
WeakSet (addresses added by the set trap), the raw root (`parentTarget`),
and the log of events emitted so far (in emission order). -/
structure Session where
  heap : List HObj
  childrens : List (Nat × Nat)
  proxiedChildrenSet : List Nat
  parentTarget : Nat
  events : List Event
deriving DecidableEq, Repr

/-- Result of a member operation: success with the new session state and a
result, a thrown JavaScript exception, or fuel exhaustion (a model
artifact, never reached with enough fuel). -/
inductive Res (α : Type) where
  | ok (s : Session) (v : α)
  | thrown
  | out
deriving DecidableEq, Repr

/-- Result value of a successful member operation, if any. -/
def Res.val? : Res α → Option α
  | .ok _ v => some v
  | _ => none

/-- Event log of a successful member operation, if any. -/
def Res.evts? : Res α → Option (List Event)
  | .ok s _ => some s.events
  | _ => none

/-- Session state of a successful member operation (defaulting to `d`). -/
def Res.stateD : Res α → Session → Session
  | .ok s _, _ => s
  | _, d => d

/-- List indexing for the heap. -/
def nth : List α → Nat → Option α
  | [], _ => none
  | x :: _, 0 => some x
  | _ :: xs, n + 1 => nth xs n

/-- Replace the element at an index (no-op when out of range). -/
def setNth : List α → Nat → α → List α
  | [], _, _ => []
  | _ :: xs, 0, y => y :: xs
  | x :: xs, n + 1, y => x :: setNth xs n y

/-- Allocate a fresh heap object; its address is the old heap length. -/
def alloc (h : List HObj) (o : HObj) : List HObj × Nat :=
  (h ++ [o], h.length)

/-- Association-list lookup on string keys (JavaScript property lookup). -/
def slookup : List (String × α) → String → Option α
  | [], _ => none
  | (k, v) :: rest, p => if k = p then some v else slookup rest p

/-- JavaScript property write on a plain object: overwrite in place if the
key exists, otherwise append (insertion order preserved). -/
def sset : List (String × α) → String → α → List (String × α)
  | [], p, v => [(p, v)]
  | (k, w) :: rest, p, v => if k = p then (p, v) :: rest else (k, w) :: sset rest p v

/-- JavaScript `delete obj[k]` on a plain object: remove the key. -/
def sremove : List (String × α) → String → List (String × α)
  | [], _ => []
  | (k, w) :: rest, p => if k = p then sremove rest p else (k, w) :: sremove rest p

/-- `target[prop]` on a plain object (`undefined` when absent). -/
def getField (f : List (String × JSVal)) (p : String) : JSVal :=
  (slookup f p).getD .undefined

/-- `childrens` WeakMap lookup. -/
def alookup : List (Nat × Nat) → Nat → Option Nat
  | [], _ => none
  | (k, v) :: rest, a => if k = a then some v else alookup rest a

/-- `WeakMap.get` applied to an arbitrary value: `undefined` for
non-object keys (so also for `null`), the stored proxy reference for a
cached object reference. -/
def weakMapGet (ch : List (Nat × Nat)) : JSVal → JSVal
  | .ref a => match alookup ch a with
      | some p => .ref p
      | none => .undefined
  | _ => .undefined

/-- Append an emitted event to the session log
(`emitter.emit(kind, { parent: parentTarget, path, value })`). -/
def emitEv (s : Session) (k : EventKind) (p : List String) (v : JSVal) : Session :=
  { s with events := s.events ++ [⟨k, s.parentTarget, p, v⟩] }

/-- Member read `a[prop]`.  On a plain object this is a raw property read;
on a proxy it runs the `get` trap of `storage.ts` lines 116–142: read
`target[prop]` (recursively, since the target may itself be a proxy); if
the value is neither `undefined` nor `null`, emit `GET` with path
`[...path, prop]` and the raw value, then for object-typed values return it
unwrapped when it is in `proxiedChildrenSet`, return the cached proxy when
`childrens` has it, and otherwise create, cache and return a fresh child
proxy; `undefined` and `null` are returned unmodified without an event.
(The reserved `emitterSymbol` key is a JavaScript `Symbol`, disjoint from
every string property, so it does not appear in this string-keyed model.) -/
def memberGet : Nat → Session → Nat → String → Res JSVal
  | fuel, s, a, prop =>
    match nth s.heap a, fuel with
    | some (.plain f), _ => .ok s (getField f prop)
    | some (.prox _ _), 0 => .out
    | some (.prox t path), n + 1 =>
        match memberGet n s t prop with
        | .ok s1 value =>
          if value = .undefined ∨ value = .null then .ok s1 value
          else
            let s2 := emitEv s1 .GET (path ++ [prop]) value
            match value with
            | .ref va =>
              if va ∈ s2.proxiedChildrenSet then .ok s2 value
              else
                match alookup s2.childrens va with
                | some pa => .ok s2 (.ref pa)
                | none =>
                  let (h2, np) := alloc s2.heap (.prox va (path ++ [prop]))
                  .ok { s2 with heap := h2, childrens := (va, np) :: s2.childrens } (.ref np)
            | _ => .ok s2 value
        | .thrown => .thrown
        | .out => .out
    | none, _ => .thrown

/-- Member write `a[prop] = v`.  On a plain object this is a raw property
write; on a proxy it runs the `set` trap of `storage.ts` lines 144–165:
object-typed values are stored as proxies (the cached one from `childrens`
if present, else a freshly created child proxy which is cached and whose
underlying object is added to `proxiedChildrenSet`); `null` is
object-typed but `new Proxy(null, …)` throws a `TypeError`; other values
are stored raw.  After the store the trap emits `SET` with
`value: target[prop]` (a fresh member read) and returns `true`. -/
def memberSet : Nat → Session → Nat → String → JSVal → Res Bool
  | fuel, s, a, prop, v =>
    match nth s.heap a, fuel with
    | some (.plain f), _ =>
      .ok { s with heap := setNth s.heap a (.plain (sset f prop v)) } true
    | some (.prox _ _), 0 => .out
    | some (.prox t path), n + 1 =>
      let pre : Res JSVal :=
        match v with
        | .null =>
          -- `childrens.has(null)` is `false`, so the trap reaches
          -- `new Proxy(null, …)`, which throws a `TypeError`.
          .thrown
        | .ref va =>
          match alookup s.childrens va with
          | some pa => .ok s (.ref pa)
          | none =>
            let p := alloc s.heap (.prox va (path ++ [prop]))
            .ok { s with heap := p.1, childrens := (va, p.2) :: s.childrens,
                         proxiedChildrenSet := va :: s.proxiedChildrenSet } (.ref p.2)
        | w => .ok s w
      match pre with
      | .ok s1 sv =>
        match memberSet n s1 t prop sv with
        | .ok s2 _ =>
          -- the trap ignores the inner write's reported success
          -- ("we do not care about success"), then emits SET with
          -- `value: target[prop]` — a fresh member read of the target
          match memberGet n s2 t prop with
          | .ok s3 stored => .ok (emitEv s3 .SET (path ++ [prop]) stored) true
          | .thrown => .thrown
          | .out => .out
        | .thrown => .thrown
        | .out => .out
      | .thrown => .thrown
      | .out => .out
    | none, _ => .thrown

/-- Member delete `delete a[prop]`.  On a plain data object the delete
always succeeds and removes the key; on a proxy it runs the
`deleteProperty` trap of `storage.ts` lines 167–177: the ternary
`typeof target[prop] === "object" ? childrens.get(target[prop])! :
target[prop]` reads `target[prop]` twice (once for `typeof`, once in the
chosen branch), the delete is forwarded to the target, and `DEL` with the
resolved value is emitted only if the delete succeeded. -/
def memberDel : Nat → Session → Nat → String → Res Bool
  | fuel, s, a, prop =>
    match nth s.heap a, fuel with
    | some (.plain f), _ =>
      .ok { s with heap := setNth s.heap a (.plain (sremove f prop)) } true
    | some (.prox _ _), 0 => .out
    | some (.prox t path), n + 1 =>
      match memberGet n s t prop with
      | .ok s1 cur =>
        match memberGet n s1 t prop with
        | .ok s2 cur2 =>
          let value := if typeofObject cur then weakMapGet s2.childrens cur2 else cur2
          match memberDel n s2 t prop with
          | .ok s3 success =>
            .ok (if success then emitEv s3 .DEL (path ++ [prop]) value else s3) success
          | .thrown => .thrown
          | .out => .out
        | .thrown => .thrown
        | .out => .out
      | .thrown => .thrown
      | .out => .out
    | none, _ => .thrown

/-!  ## Storage session persistence (`createStorage`, lines 211–220)

The `Emitter` class itself lives in `src/core/vendetta/Emitter.ts`, which is
not part of the repository snapshot; only its use sites are.  Its listener
bookkeeping is therefore modelled from the spec below, while the
registration performed by `createStorage` is taken from the source.  -/

/-- Modelled from the spec: the `Emitter` class (`./Emitter`, not included
in the repository snapshot) keeps, per event kind, the listeners registered
with `on`, and `emit` invokes every listener registered for the emitted
kind synchronously in registration order (spec §4.2).  Listeners are
identified by numeric ids; the registration table lists
(kind, listener id) pairs in registration order. -/
def emitterOn (em : List (EventKind × Nat)) (k : EventKind) (l : Nat) :
    List (EventKind × Nat) :=
  em ++ [(k, l)]

/-- Modelled from the spec: the listeners an `emit` of kind `k` invokes,
in registration order. -/
def listenersFor (em : List (EventKind × Nat)) (k : EventKind) : List Nat :=
  (em.filter (fun p => p.1 = k)).map (fun p => p.2)

/-- The registration table `createStorage` builds (`storage.ts` lines
215–217): one persistence handler (id 0, `() => backend.set(proxy)`)
registered for `SET` and for `DEL`, nothing else. -/
def storageListeners : List (EventKind × Nat) :=
  emitterOn (emitterOn [] .SET 0) .DEL 0

/-- Number of `backend.set` invocations a log of emitted events causes in a
storage session: each emitted event invokes every listener registered for
its kind once, and each invocation of the persistence handler performs one
`backend.set` call. -/
def backendSetCalls (evs : List Event) : Nat :=
  (evs.map (fun e => (listenersFor storageListeners e.kind).length)).sum

/-!  ## `getMMKVPath` (lines 14–29)

`ILLEGAL_CHARS_REGEX` is a module-level regular expression with the global
flag, so its `lastIndex` is mutable state threaded through every call:
`regex.test(name)` searches from `lastIndex`, sets `lastIndex` to just past
the match on success and resets it to `0` on failure, and a global-regex
`String.replace` matches from index 0 and leaves `lastIndex` at `0`.  -/

/-- The character class `[<>:"/\\|?*]` of `ILLEGAL_CHARS_REGEX`. -/
def illegalChar (c : Char) : Bool :=
  c = '<' ∨ c = '>' ∨ c = ':' ∨ c = '"' ∨ c = '/' ∨ c = '\\' ∨ c = '|' ∨ c = '?' ∨ c = '*'

/-- Index of the first illegal character at position `≥ i` in the remaining
characters `cs` (which start at absolute position `i`). -/
def findIllegalAux : List Char → Nat → Option Nat
  | [], _ => none
  | c :: rest, i => if illegalChar c then some i else findIllegalAux rest (i + 1)

/-- Index of the first illegal character of `cs` at position `≥ li`. -/
def findIllegalFrom (cs : List Char) (li : Nat) : Option Nat :=
  findIllegalAux (cs.drop li) li

/-- `ILLEGAL_CHARS_REGEX.test(name)` with current `lastIndex = li`:
returns the result and the new `lastIndex` (just past the match on a hit,
`0` on a miss). -/
def regexTestG (li : Nat) (cs : List Char) : Bool × Nat :=
  match findIllegalFrom cs li with
  | some i => (true, i + 1)
  | none => (false, 0)

/-- `name.replace(ILLEGAL_CHARS_REGEX, "-")`: every illegal character
becomes a hyphen (a global replace matches from index 0). -/
def replaceIllegal (cs : List Char) : List Char :=
  cs.map (fun c => if illegalChar c then '-' else c)

/-- The second replace of line 25 (pattern: one or more hyphens, global
flag; replacement a single hyphen): collapse each run of consecutive
hyphens to a single hyphen. -/
def collapseHyphens : List Char → List Char
  | [] => []
  | [c] => [c]
  | c :: d :: rest =>
    if c = '-' ∧ d = '-' then collapseHyphens (d :: rest)
    else c :: collapseHyphens (d :: rest)

/-- The file path segment `getMMKVPath` builds from the store name
(the part after the fixed `vd_mmkv/` prefix). -/
def mmkvSegment (li : Nat) (name : String) : List Char :=
  if (regexTestG li name.data).1 then collapseHyphens (replaceIllegal name.data)
  else name.data

/-- `getMMKVPath(name)` (`storage.ts` lines 22–29) with the regex state
made explicit: takes the entry `lastIndex`, returns the exit `lastIndex`
and the path.  On a hit, the two `String.replace` calls run and the global
replace leaves `lastIndex` at `0`; on a miss, the failed `test` itself
reset `lastIndex` to `0`. -/
def getMMKVPath (li : Nat) (name : String) : Nat × String :=
  let t := regexTestG li name.data
  if t.1 then (0, "vd_mmkv/" ++ String.mk (collapseHyphens (replaceIllegal name.data)))
  else (t.2, "vd_mmkv/" ++ String.mk name.data)

/-!  ## File backend and legacy-store migration (lines 42–105)

File contents and legacy key-value entries are JSON strings; the model
abstracts a string by its JSON parse class: `json v` for a string that
parses to the document `v` (in particular `JSON.stringify(v)`), `corrupt`
for an unparseable/truncated string, and `largeSentinel` for the exact
string `"!!LARGE_VALUE!!"` (which is not valid JSON either, but is
compared for equality before any parse).  `JSON.stringify` never produces
the sentinel, so the classes are disjoint.  The default (non-iOS) platform
is modelled, where `filePathFixer` is the identity, so files are keyed by
their `DocumentsDirPath`-relative path. -/

/-- A JSON-serializable document. -/
inductive JVal where
  | null
  | bool (b : Bool)
  | num (n : Int)
  | str (s : String)
  | obj (fields : List (String × JVal))
deriving Repr

/-- The parse class of a stored string (see module docstring above). -/
inductive FileContent where
  | json (v : JVal)
  | corrupt
  | largeSentinel
deriving Repr

/-- `JSON.parse` on a stored string: the document for a parseable string,
`none` (a thrown `SyntaxError`) otherwise. -/
def parseFC : FileContent → Option JVal
  | .json v => some v
  | _ => none

/-- `oldData === "!!LARGE_VALUE!!"`. -/
def isLargeSentinel : FileContent → Bool
  | .largeSentinel => true
  | _ => false

/-- External storage state: documents-directory files (keyed by their
path relative to `DocumentsDirPath`), the MMKV overflow cache files
(keyed by store name, standing for `CacheDirPath/mmkv/<store>`), and the
legacy MMKV key-value store (keyed by store name). -/
structure Sys where
  fs : List (String × FileContent)
  cache : List (String × FileContent)
  mmkv : List (String × FileContent)
deriving Repr

/-- `createFileBackend(file, defaultData).get()` (lines 84–99): if the
file exists and parses, return the parsed document; otherwise (absent
file, or `JSON.parse` threw and the `catch` swallowed it) write
`JSON.stringify(defaultData)` and return the parse of a fresh read.
`Except.error` is an exception escaping to the caller (only possible if
the re-read after the write failed to parse). -/
def fileBackendGet (file : String) (defaultData : JVal)
    (fs : List (String × FileContent)) :
    Except Unit (List (String × FileContent) × JVal) :=
  let fromDefault : List (String × FileContent) →
      Except Unit (List (String × FileContent) × JVal) := fun fs0 =>
    let fs1 := sset fs0 file (.json defaultData)
    match (slookup fs1 file).bind parseFC with
    | some v => .ok (fs1, v)
    | none => .error ()
  match slookup fs file with
  | some c =>
    match parseFC c with
    | some v => .ok (fs, v)
    | none => fromDefault fs
  | none => fromDefault fs

/-- `createFileBackend(file, …).set(data)` (lines 100–103). -/
def fileBackendSet (file : String) (data : JVal)
    (fs : List (String × FileContent)) : List (String × FileContent) :=
  sset fs file (.json data)

/-- The migration promise body of `createMMKVBackend` (lines 49–78), given
the `mmkvPath` computed at backend creation: a no-op when the file already
exists; otherwise reads the legacy entry (defaulting to
`JSON.stringify(defaultData)` when absent), falls back to the overflow
cache file on the oversized-value sentinel (or to the default when that is
absent too), discards an unparseable value in favor of the default, writes
the result to the file path, and then — after the write — removes the
legacy entry if it is still present. -/
def mmkvMigrate (store : String) (defaultData : JVal) (mmkvPath : String)
    (sys : Sys) : Sys :=
  if (slookup sys.fs mmkvPath).isSome then sys
  else
    let oldData := (slookup sys.mmkv store).getD (.json defaultData)
    let oldData :=
      if isLargeSentinel oldData then
        match slookup sys.cache store with
        | some c => c
        | none => .json defaultData
      else oldData
    let oldData := match parseFC oldData with
      | some _ => oldData
      | none => .json defaultData
    let sysW := { sys with fs := sset sys.fs mmkvPath oldData }
    if (slookup sysW.mmkv store).isSome then
      { sysW with mmkv := sremove sysW.mmkv store }
    else sysW

/-- Opening a `createMMKVBackend(store, defaultData)` store: compute the
path (threading the regex `lastIndex`), run the migration promise, then
run the file backend's `get`. -/
def mmkvOpen (store : String) (defaultData : JVal) (li : Nat) (sys : Sys) :
    Sys × Except Unit JVal :=
  let path := (getMMKVPath li store).2
  let sys1 := mmkvMigrate store defaultData path sys
  match fileBackendGet path defaultData sys1.fs with
  | .ok p => ({ sys1 with fs := p.1 }, .ok p.2)
  | .error e => (sys1, .error e)

/-!  ## `wrapSync` and `awaitStorage` (lines 222–248) -/

/-- JavaScript truthiness of the `awaited` variable (`awaited ? cb() :
awaitQueue.push(cb)`); a resolved storage session is an object reference
and hence truthy. -/
def jsTruthy : JSVal → Bool
  | .undefined => false
  | .null => false
  | .bool b => b
  | .num n => decide (n ≠ 0)
  | .str s => decide (s ≠ "")
  | .ref _ => true

/-- State of one `wrapSync` wrapper: the `awaited` variable (initially
`undefined`), the `awaitQueue` of pending callbacks (by id, in enqueue
order), and the log of callback invocations so far (in invocation
order). -/
structure SyncState where
  awaited : JSVal
  queue : List Nat
  ran : List Nat
deriving DecidableEq, Repr

/-- The initial `wrapSync` state: `let awaited: any = undefined`, empty
queue. -/
def syncInit : SyncState :=
  { awaited := .undefined, queue := [], ran := [] }

/-- An interaction with a `wrapSync` wrapper: a call of the hidden
await-ready entry point `awaitInit` with a callback (this is what
`awaitStorage` does for each store), or the resolution of the wrapped
promise (`store.then(...)`, which fires once). -/
inductive SyncOp where
  | register (id : Nat)
  | resolve (v : JSVal)
deriving DecidableEq, Repr

/-- One step of the wrapper: `awaitInit = cb => (awaited ? cb() :
awaitQueue.push(cb))`, and on resolution `awaited = v;
awaitQueue.forEach(cb => cb())` (the queue is not cleared, but the
promise resolves at most once). -/
def syncStep (st : SyncState) : SyncOp → SyncState
  | .register id =>
    if jsTruthy st.awaited then { st with ran := st.ran ++ [id] }
    else { st with queue := st.queue ++ [id] }
  | .resolve v => { st with awaited := v, ran := st.ran ++ st.queue }

/-- Run a sequence of interactions from the initial state. -/
def syncRun (ops : List SyncOp) : SyncState :=
  ops.foldl syncStep syncInit

/-- The callback ids registered by a list of interactions, in order. -/
def registerIds : List SyncOp → List Nat
  | [] => []
  | .register id :: rest => id :: registerIds rest
  | .resolve _ :: rest => registerIds rest

/-- Whether an interaction is a registration (and not a resolution). -/
def SyncOp.isRegister : SyncOp → Bool
  | .register _ => true
  | .resolve _ => false

/-!  ## Helper lemmas -/

theorem nth_lt_length {l : List α} {n : Nat} {v : α} (h : nth l n = some v) :
    n < l.length := by
  induction l generalizing n with
  | nil => simp [nth] at h
  | cons x xs ih =>
    cases n with
    | zero => simp
    | succ m => simpa using ih (by simpa [nth] using h)

theorem nth_append_of_some {l l' : List α} {n : Nat} {v : α}
    (h : nth l n = some v) : nth (l ++ l') n = some v := by
  induction l generalizing n with
  | nil => simp [nth] at h
  | cons x xs ih =>
    cases n with
    | zero => simpa [nth] using h
    | succ m => simpa [nth] using ih (by simpa [nth] using h)

theorem nth_setNth_ne {l : List α} {a b : Nat} {y : α} (h : a ≠ b) :
    nth (setNth l b y) a = nth l a := by
  induction l generalizing a b with
  | nil => simp [setNth]
  | cons x xs ih =>
    cases b with
    | zero =>
      cases a with
      | zero => exact absurd rfl h
      | succ m => simp [setNth, nth]
    | succ k =>
      cases a with
      | zero => simp [setNth, nth]
      | succ m => simpa [setNth, nth] using ih (fun hh => h (by simp [hh]))

theorem nth_setNth_self {l : List α} {a : Nat} {x y : α}
    (h : nth l a = some x) : nth (setNth l a y) a = some y := by
  induction l generalizing a with
  | nil => simp [nth] at h
  | cons z xs ih =>
    cases a with
    | zero => simp [setNth, nth]
    | succ m => simpa [setNth, nth] using ih (by simpa [nth] using h)

theorem setNth_eq_of_nth {l : List α} {a : Nat} {x : α}
    (h : nth l a = some x) : setNth l a x = l := by
  induction l generalizing a with
  | nil => rfl
  | cons z xs ih =>
    cases a with
    | zero => simp [nth] at h; simp [setNth, h]
    | succ m => simpa [setNth] using ih (by simpa [nth] using h)

theorem slookup_sset_self (f : List (String × α)) (p : String) (v : α) :
    slookup (sset f p v) p = some v := by
  induction f with
  | nil => simp [sset, slookup]
  | cons kv rest ih =>
    by_cases h : kv.1 = p <;> simp [sset, slookup, h, ih]

theorem getField_sset_self (f : List (String × JSVal)) (p : String) (v : JSVal) :
    getField (sset f p v) p = v := by
  simp [getField, slookup_sset_self]

theorem slookup_sremove_self (f : List (String × α)) (p : String) :
    slookup (sremove f p) p = none := by
  induction f with
  | nil => simp [sremove, slookup]
  | cons kv rest ih =>
    by_cases h : kv.1 = p <;> simp [sremove, slookup, h, ih]

theorem getField_sremove_self (f : List (String × JSVal)) (p : String) :
    getField (sremove f p) p = .undefined := by
  simp [getField, slookup_sremove_self]

theorem sremove_of_slookup_none {f : List (String × α)} {p : String}
    (h : slookup f p = none) : sremove f p = f := by
  induction f with
  | nil => rfl
  | cons kv rest ih =>
    rcases kv with ⟨k, w⟩
    by_cases hk : k = p
    · simp [slookup, hk] at h
    · simp [slookup, hk] at h
      simp [sremove, hk, ih h]

theorem prox_ne_plain_addr {s : Session} {P t : Nat} {path : List String}
    {f : List (String × JSVal)}
    (hP : nth s.heap P = some (.prox t path))
    (ht : nth s.heap t = some (.plain f)) : P ≠ t := by
  intro h
  rw [h, ht] at hP
  simp at hP

/-!  ## Concrete sessions used as inputs below -/

/-- A fresh session over an empty raw root (address 0, wrapped by the root
proxy at address 2) with a second, unrelated raw empty object at
address 1 (a candidate value to be written through the proxy). -/
def sessTwoObjs : Session :=
  { heap := [.plain [], .plain [], .prox 0 []], childrens := [],
    proxiedChildrenSet := [], parentTarget := 0, events := [] }

/-- A fresh session over the document `{ a: null }` (raw root at address 0,
root proxy at address 1). -/
def sessNullDoc : Session :=
  { heap := [.plain [("a", .null)], .prox 0 []], childrens := [],
    proxiedChildrenSet := [], parentTarget := 0, events := [] }

/-- A fresh session over the document `{ a: { b: 1 } }` (raw root at
address 0, the nested object at address 1, root proxy at address 2), where
the nested object has never been read or written through the proxy. -/
def sessNestedDoc : Session :=
  { heap := [.plain [("a", .ref 1)], .plain [("b", .num 1)], .prox 0 []],
    childrens := [], proxiedChildrenSet := [], parentTarget := 0, events := [] }

/-!  ## C1 — round-trip through the proxy -/

/-- C1, counterexample: in the fresh session `sessTwoObjs`, writing the
object value `.ref 1` at key `"a"` through the root proxy succeeds, but
reading `"a"` back returns `.ref 4` — a freshly created proxy (address 4)
wrapping the stored child proxy (address 3) — and not the written value
`.ref 1`.  So "writing a value v at p and then reading at p returns v"
fails for object values: the read-back is a different reference. -/
theorem c1_roundtrip_counterexample :
    (memberSet 5 sessTwoObjs 2 "a" (.ref 1)).val? = some true ∧
    (memberGet 5 ((memberSet 5 sessTwoObjs 2 "a" (.ref 1)).stateD sessTwoObjs)
        2 "a").val? = some (.ref 4) ∧
    JSVal.ref 4 ≠ JSVal.ref 1 := by
  decide

/-- C1 (amended): for every session, every proxy `P` whose target `t` is a
plain object, every key and every value `v` that is not object-typed
(`undefined`, boolean, number, or string — not `null` and not an object
reference), writing `v` at the key through `P` reports success and a
subsequent read at the key through `P` returns exactly `v`.  (For
object-typed values the store wraps the value in proxies and the read-back
is a different proxy reference — see the counterexample — and writing
`null` throws a `TypeError` from `new Proxy(null, …)`.) -/
theorem c1_write_read_roundtrip (fuel : Nat) (s : Session) (P t : Nat)
    (path : List String) (f : List (String × JSVal)) (prop : String) (v : JSVal)
    (hP : nth s.heap P = some (.prox t path))
    (ht : nth s.heap t = some (.plain f))
    (hv : typeofObject v = false) :
    (memberSet (fuel + 1) s P prop v).val? = some true ∧
    (memberGet (fuel + 1) ((memberSet (fuel + 1) s P prop v).stateD s)
        P prop).val? = some v := by
  have hne : P ≠ t := prox_ne_plain_addr hP ht
  have ht' : nth (setNth s.heap t (.plain (sset f prop v))) t
      = some (.plain (sset f prop v)) := nth_setNth_self ht
  have hP' : nth (setNth s.heap t (.plain (sset f prop v))) P
      = some (.prox t path) := by rw [nth_setNth_ne hne]; exact hP
  cases v with
  | null => simp [typeofObject] at hv
  | ref a => simp [typeofObject] at hv
  | undefined =>
    simp [memberSet.eq_def, memberGet.eq_def, Res.val?, Res.stateD, emitEv,
      hP, ht, ht', hP', getField_sset_self]
  | bool b =>
    simp [memberSet.eq_def, memberGet.eq_def, Res.val?, Res.stateD, emitEv,
      hP, ht, ht', hP', getField_sset_self]
  | num n =>
    simp [memberSet.eq_def, memberGet.eq_def, Res.val?, Res.stateD, emitEv,
      hP, ht, ht', hP', getField_sset_self]
  | str s' =>
    simp [memberSet.eq_def, memberGet.eq_def, Res.val?, Res.stateD, emitEv,
      hP, ht, ht', hP', getField_sset_self]

/-- C1, witness: the amended round-trip theorem applied to the concrete
session `sessTwoObjs`, key `"b"` and the number `7`. -/
theorem c1_write_read_roundtrip_witness :
    (memberSet 1 sessTwoObjs 2 "b" (.num 7)).val? = some true ∧
    (memberGet 1 ((memberSet 1 sessTwoObjs 2 "b" (.num 7)).stateD sessTwoObjs)
        2 "b").val? = some (.num 7) :=
  c1_write_read_roundtrip 0 sessTwoObjs 2 0 [] [] "b" (.num 7) rfl rfl rfl

/-!  ## C3 — child-proxy identity -/

/-- C3, counterexample: in `sessTwoObjs`, writing the raw object `.ref 1`
at key `"a"` stores the freshly created child proxy (address 3) in the
root's field, but reading `"a"` back wraps that stored proxy in a *second*
proxy: the read returns `.ref 4` where heap address 4 is a proxy whose
target (address 3) is itself a proxy of the raw object (address 1).  The
re-wrap happens because the set trap records the *raw* object in
`proxiedChildrenSet` and keys `childrens` by it, while the field now holds
the proxy, which is in neither. -/
theorem c3_rewrap_counterexample :
    (memberGet 5 ((memberSet 5 sessTwoObjs 2 "a" (.ref 1)).stateD sessTwoObjs)
        2 "a").val? = some (.ref 4) ∧
    nth ((memberGet 5 ((memberSet 5 sessTwoObjs 2 "a" (.ref 1)).stateD sessTwoObjs)
        2 "a").stateD sessTwoObjs).heap 4 = some (.prox 3 ["a"]) ∧
    nth ((memberGet 5 ((memberSet 5 sessTwoObjs 2 "a" (.ref 1)).stateD sessTwoObjs)
        2 "a").stateD sessTwoObjs).heap 3 = some (.prox 1 ["a"]) := by
  decide

/-- C3 (amended): identity stability holds — for every proxy `P` over a
plain target, reading the same key twice with no intervening write returns
the same value (in particular, the same proxy reference for object-valued
keys: the first read caches the child proxy in `childrens` and the second
read returns the cached one).  The claim's other half is false: a value
stored by a previous write through the proxy *is* wrapped in a second
proxy when read back (see the counterexample), because the stored field
holds a proxy while the caches are keyed by the raw object. -/
theorem c3_identity_stability (fuel : Nat) (s : Session) (P t : Nat)
    (path : List String) (f : List (String × JSVal)) (prop : String)
    (hP : nth s.heap P = some (.prox t path))
    (ht : nth s.heap t = some (.plain f)) :
    (memberGet (fuel + 1) ((memberGet (fuel + 1) s P prop).stateD s)
        P prop).val? = (memberGet (fuel + 1) s P prop).val? := by
  cases hval : getField f prop with
  | undefined =>
    simp [memberGet.eq_def, Res.val?, Res.stateD, emitEv, hP, ht, hval]
  | null =>
    simp [memberGet.eq_def, Res.val?, Res.stateD, emitEv, hP, ht, hval]
  | bool b =>
    simp [memberGet.eq_def, Res.val?, Res.stateD, emitEv, hP, ht, hval]
  | num n =>
    simp [memberGet.eq_def, Res.val?, Res.stateD, emitEv, hP, ht, hval]
  | str s' =>
    simp [memberGet.eq_def, Res.val?, Res.stateD, emitEv, hP, ht, hval]
  | ref va =>
    by_cases hmem : va ∈ s.proxiedChildrenSet
    · simp [memberGet.eq_def, Res.val?, Res.stateD, emitEv, hP, ht, hval, hmem]
    · cases halo : alookup s.childrens va with
      | some pa =>
        simp [memberGet.eq_def, Res.val?, Res.stateD, emitEv, hP, ht, hval,
          hmem, halo]
      | none =>
        have hP2 : nth (s.heap ++ [HObj.prox va (path ++ [prop])]) P
            = some (.prox t path) := nth_append_of_some hP
        have ht2 : nth (s.heap ++ [HObj.prox va (path ++ [prop])]) t
            = some (.plain f) := nth_append_of_some ht
        simp [memberGet.eq_def, Res.val?, Res.stateD, emitEv, alloc, alookup,
          hP, ht, hval, hmem, halo, hP2, ht2]

/-- C3, witness: identity stability applied to the concrete session
`sessNestedDoc` at key `"a"` (an object-valued key): two successive reads
agree. -/
theorem c3_identity_stability_witness :
    (memberGet 1 ((memberGet 1 sessNestedDoc 2 "a").stateD sessNestedDoc)
        2 "a").val? = (memberGet 1 sessNestedDoc 2 "a").val? :=
  c3_identity_stability 0 sessNestedDoc 2 0 [] [("a", .ref 1)] "a" rfl rfl

/-!  ## C6 — deletion events -/

/-- C6, counterexample: in `sessNestedDoc` the key `"a"` is present with
value `.ref 1` (the object `{ b: 1 }`), which has never been read or
written through the proxy, so `childrens` has no entry for it.  Deleting
`"a"` succeeds and emits exactly one `DEL` event, but the event's value is
`undefined` (`childrens.get(target["a"])!` misses), not the value that
existed immediately before the deletion. -/
theorem c6_delete_value_counterexample :
    memberDel 5 sessNestedDoc 2 "a"
      = .ok { sessNestedDoc with
                heap := [.plain [], .plain [("b", .num 1)], .prox 0 []],
                events := [⟨.DEL, 0, ["a"], .undefined⟩] } true ∧
    getField [("a", .ref 1)] "a" = .ref 1 ∧
    JSVal.undefined ≠ JSVal.ref 1 := by
  decide

/-- C6 (amended): deleting a key through a proxy over a plain target
succeeds, emits exactly one `DEL` event whose value is the prior value for
non-object-typed values, and for object-typed prior values (including
`null`) the cached child proxy from `childrens` if one exists and
`undefined` otherwise; the event is emitted only on success (a delete on a
plain data object always succeeds), and a subsequent read of the key
returns `undefined` (absent). -/
theorem c6_delete_emits_del (fuel : Nat) (s : Session) (P t : Nat)
    (path : List String) (f : List (String × JSVal)) (prop : String)
    (hP : nth s.heap P = some (.prox t path))
    (ht : nth s.heap t = some (.plain f)) :
    memberDel (fuel + 1) s P prop
      = .ok (emitEv { s with heap := setNth s.heap t (.plain (sremove f prop)) }
          .DEL (path ++ [prop])
          (if typeofObject (getField f prop) then
             weakMapGet s.childrens (getField f prop)
           else getField f prop)) true ∧
    (memberGet (fuel + 1) ((memberDel (fuel + 1) s P prop).stateD s)
        P prop).val? = some .undefined := by
  have hne : P ≠ t := prox_ne_plain_addr hP ht
  have ht' : nth (setNth s.heap t (.plain (sremove f prop))) t
      = some (.plain (sremove f prop)) := nth_setNth_self ht
  have hP' : nth (setNth s.heap t (.plain (sremove f prop))) P
      = some (.prox t path) := by rw [nth_setNth_ne hne]; exact hP
  simp [memberDel.eq_def, memberGet.eq_def, Res.val?, Res.stateD, emitEv,
    hP, ht, ht', hP', getField_sremove_self]

/-- C6, witness: the amended deletion theorem applied to the concrete
session `sessNestedDoc` at key `"a"`. -/
theorem c6_delete_emits_del_witness :
    memberDel 5 sessNestedDoc 2 "a"
      = .ok (emitEv { sessNestedDoc with
            heap := setNth sessNestedDoc.heap 0 (.plain (sremove [("a", .ref 1)] "a")) }
          .DEL ([] ++ ["a"])
          (if typeofObject (getField [("a", .ref 1)] "a") then
             weakMapGet sessNestedDoc.childrens (getField [("a", .ref 1)] "a")
           else getField [("a", .ref 1)] "a")) true ∧
    (memberGet 5 ((memberDel 5 sessNestedDoc 2 "a").stateD sessNestedDoc)
        2 "a").val? = some .undefined :=
  c6_delete_emits_del 4 sessNestedDoc 2 0 [] [("a", .ref 1)] "a" rfl rfl

/-!  ## C7 — read events -/

/-- C7, counterexample: in `sessNullDoc` the key `"a"` is *present* with
value `null`, yet reading it returns `null` with the session unchanged —
in particular no `GET` event is emitted (the event log stays empty),
contradicting "for every present value, including primitives and null, a
GET event is emitted". -/
theorem c7_null_get_counterexample :
    memberGet 5 sessNullDoc 1 "a" = .ok sessNullDoc .null ∧
    getField [("a", .null)] "a" = .null := by
  decide

/-- C7 (amended): for a property read through a proxy over a plain target,
if the raw value is `undefined` (absent) *or `null`*, it is returned
unmodified and no event is emitted (the session is unchanged); otherwise
exactly one `GET` event is emitted, with path `path ++ [prop]` and the raw
value. -/
theorem c7_get_event_emission (fuel : Nat) (s : Session) (P t : Nat)
    (path : List String) (f : List (String × JSVal)) (prop : String)
    (hP : nth s.heap P = some (.prox t path))
    (ht : nth s.heap t = some (.plain f)) :
    ((getField f prop = .undefined ∨ getField f prop = .null) →
      memberGet (fuel + 1) s P prop = .ok s (getField f prop)) ∧
    (¬(getField f prop = .undefined ∨ getField f prop = .null) →
      (memberGet (fuel + 1) s P prop).evts?
        = some (s.events
            ++ [⟨.GET, s.parentTarget, path ++ [prop], getField f prop⟩])) := by
  constructor
  · intro h
    rcases h with h | h <;> simp [memberGet.eq_def, hP, ht, h]
  · intro h
    obtain ⟨h1, h2⟩ := not_or.mp h
    cases hval : getField f prop with
    | undefined => exact absurd hval h1
    | null => exact absurd hval h2
    | bool b => simp [memberGet.eq_def, Res.evts?, emitEv, hP, ht, hval]
    | num n => simp [memberGet.eq_def, Res.evts?, emitEv, hP, ht, hval]
    | str s' => simp [memberGet.eq_def, Res.evts?, emitEv, hP, ht, hval]
    | ref va =>
      by_cases hmem : va ∈ s.proxiedChildrenSet
      · simp [memberGet.eq_def, Res.evts?, emitEv, hP, ht, hval, hmem]
      · cases halo : alookup s.childrens va with
        | some pa =>
          simp [memberGet.eq_def, Res.evts?, emitEv, hP, ht, hval, hmem, halo]
        | none =>
          simp [memberGet.eq_def, Res.evts?, emitEv, alloc, hP, ht, hval,
            hmem, halo]

/-- C7, witness: the amended read-event theorem applied to `sessNestedDoc`
at the present, non-null key `"a"`: one `GET` event is appended. -/
theorem c7_get_event_emission_witness :
    (memberGet 1 sessNestedDoc 2 "a").evts?
      = some (sessNestedDoc.events
          ++ [⟨.GET, sessNestedDoc.parentTarget, [] ++ ["a"],
               getField [("a", .ref 1)] "a"⟩]) :=
  (c7_get_event_emission 0 sessNestedDoc 2 0 [] [("a", .ref 1)] "a" rfl rfl).2
    (by decide)

/-!  ## C10 — deleting an absent key -/

/-- C10: deleting a key that is absent from the underlying plain target
still reports success and still emits exactly one `DEL` event whose value
is `undefined`; the heap (hence the document) is unchanged, and in a
storage session the emitted `DEL` event triggers exactly one more
`backend.set` invocation. -/
theorem c10_absent_delete_persists (fuel : Nat) (s : Session) (P t : Nat)
    (path : List String) (f : List (String × JSVal)) (prop : String)
    (hP : nth s.heap P = some (.prox t path))
    (ht : nth s.heap t = some (.plain f))
    (habs : slookup f prop = none) :
    memberDel (fuel + 1) s P prop
      = .ok (emitEv s .DEL (path ++ [prop]) .undefined) true ∧
    (emitEv s .DEL (path ++ [prop]) .undefined).heap = s.heap ∧
    backendSetCalls (emitEv s .DEL (path ++ [prop]) .undefined).events
      = backendSetCalls s.events + 1 := by
  have hget : getField f prop = .undefined := by simp [getField, habs]
  have hrem : sremove f prop = f := sremove_of_slookup_none habs
  have hsn : setNth s.heap t (HObj.plain f) = s.heap := setNth_eq_of_nth ht
  refine ⟨?_, rfl, ?_⟩
  · simp [memberDel.eq_def, memberGet.eq_def, emitEv, hP, ht, hget, hrem, hsn,
      typeofObject]
  · simp [backendSetCalls, emitEv, listenersFor, storageListeners, emitterOn]

/-- C10, witness: the absent-key deletion theorem applied to `sessTwoObjs`
at the absent key `"zz"`. -/
theorem c10_absent_delete_persists_witness :
    memberDel 5 sessTwoObjs 2 "zz"
      = .ok (emitEv sessTwoObjs .DEL ([] ++ ["zz"]) .undefined) true ∧
    (emitEv sessTwoObjs .DEL ([] ++ ["zz"]) .undefined).heap = sessTwoObjs.heap ∧
    backendSetCalls (emitEv sessTwoObjs .DEL ([] ++ ["zz"]) .undefined).events
      = backendSetCalls sessTwoObjs.events + 1 :=
  c10_absent_delete_persists 4 sessTwoObjs 2 0 [] [] "zz" rfl rfl rfl

/-!  ## C2 — one persistence call per mutating event -/

/-- C2: in a storage session (one persistence handler registered for `SET`
and for `DEL`, `storage.ts` lines 215–217), the number of `backend.set`
invocations caused by any log of emitted events equals the number of `SET`
events plus the number of `DEL` events — one persistence call per mutating
event, no coalescing — and no listener at all is registered for `GET`, so
a `GET` emission never triggers a backend `set`. -/
theorem c2_one_persist_per_mutation (evs : List Event) :
    backendSetCalls evs
      = evs.countP (fun e => decide (e.kind = .SET))
        + evs.countP (fun e => decide (e.kind = .DEL)) ∧
    listenersFor storageListeners .GET = [] := by
  constructor
  · have hS : (listenersFor storageListeners .SET).length = 1 := by decide
    have hD : (listenersFor storageListeners .DEL).length = 1 := by decide
    have hG : (listenersFor storageListeners .GET).length = 0 := by decide
    induction evs with
    | nil => rfl
    | cons e rest ih =>
      cases hk : e.kind <;>
        simp [backendSetCalls, List.countP_cons, hk, hS, hD, hG] at ih ⊢ <;>
        omega
  · rfl

/-!  ## C4 — corrupt or absent file falls back to the default -/

/-- C4: for a file-based backend whose on-disk content exists but fails to
deserialize — or whose file is absent — `get` returns the configured
default without an exception escaping to the caller, and the default is
(first) written to the file. -/
theorem c4_corrupt_read_default (fs : List (String × FileContent))
    (file : String) (dflt : JVal)
    (h : (slookup fs file).bind parseFC = none) :
    fileBackendGet file dflt fs = .ok (sset fs file (.json dflt), dflt) ∧
    slookup (sset fs file (.json dflt)) file = some (.json dflt) := by
  refine ⟨?_, slookup_sset_self fs file (.json dflt)⟩
  cases hc : slookup fs file with
  | none => simp [fileBackendGet, hc, slookup_sset_self, parseFC]
  | some c =>
    have hpc : parseFC c = none := by simpa [hc] using h
    cases c with
    | json v => simp [parseFC] at hpc
    | corrupt => simp [fileBackendGet, hc, slookup_sset_self, parseFC]
    | largeSentinel => simp [fileBackendGet, hc, slookup_sset_self, parseFC]

/-- C4, witness: the fallback theorem applied to a store whose file
exists with corrupt (unparseable) content. -/
theorem c4_corrupt_read_default_witness :
    fileBackendGet "f" (JVal.obj []) [("f", .corrupt)]
      = .ok (sset [("f", .corrupt)] "f" (.json (JVal.obj [])), JVal.obj []) ∧
    slookup (sset [("f", FileContent.corrupt)] "f" (.json (JVal.obj []))) "f"
      = some (.json (JVal.obj [])) :=
  c4_corrupt_read_default [("f", .corrupt)] "f" (JVal.obj []) rfl

/-!  ## C5 — legacy-store migration -/

/-- The legacy document of the migration scenario: `{"a": 1}`. -/
def legacyDocA : JVal := .obj [("a", .num 1)]

/-- C5: given a legacy MMKV entry holding `{"a":1}` and no existing
file-based store (for a store name with no illegal path characters),
opening the MMKV-backed file adapter yields `{"a":1}`; the migrated
document is written to the file path and the legacy entry removed — the
removal operating on the post-write state, i.e. only after the write —
and a second open returns the same document from the file store leaving
the whole state (in particular the legacy store) untouched. -/
theorem c5_legacy_migration (store : String) (dflt : JVal) (sys : Sys)
    (hclean : findIllegalFrom store.data 0 = none)
    (hmm : slookup sys.mmkv store = some (.json legacyDocA))
    (hfs : slookup sys.fs ("vd_mmkv/" ++ store) = none) :
    mmkvOpen store dflt 0 sys
      = ({ sys with fs := sset sys.fs ("vd_mmkv/" ++ store) (.json legacyDocA),
                    mmkv := sremove sys.mmkv store }, .ok legacyDocA) ∧
    (let sysW : Sys :=
        { sys with fs := sset sys.fs ("vd_mmkv/" ++ store) (.json legacyDocA) }
     mmkvMigrate store dflt ("vd_mmkv/" ++ store) sys
       = { sysW with mmkv := sremove sysW.mmkv store }) ∧
    slookup (sremove sys.mmkv store) store = none ∧
    mmkvOpen store dflt 0
        { sys with fs := sset sys.fs ("vd_mmkv/" ++ store) (.json legacyDocA),
                   mmkv := sremove sys.mmkv store }
      = ({ sys with fs := sset sys.fs ("vd_mmkv/" ++ store) (.json legacyDocA),
                    mmkv := sremove sys.mmkv store }, .ok legacyDocA) := by
  have hpath : getMMKVPath 0 store = (0, "vd_mmkv/" ++ store) := by
    simp [getMMKVPath, regexTestG, hclean]
  have hmig : mmkvMigrate store dflt ("vd_mmkv/" ++ store) sys
      = { sys with fs := sset sys.fs ("vd_mmkv/" ++ store) (.json legacyDocA),
                   mmkv := sremove sys.mmkv store } := by
    simp [mmkvMigrate, hfs, hmm, isLargeSentinel, parseFC, legacyDocA]
  refine ⟨?_, by simpa using hmig, slookup_sremove_self sys.mmkv store, ?_⟩
  · simp [mmkvOpen, hpath, hmig, fileBackendGet, slookup_sset_self, parseFC]
  · simp [mmkvOpen, hpath, mmkvMigrate, fileBackendGet, slookup_sset_self, parseFC]

/-- C5, witness: the migration theorem applied to the store `"t"` with
legacy entry `{"a":1}`, empty file store and empty overflow cache. -/
theorem c5_legacy_migration_witness :
    mmkvOpen "t" (JVal.obj []) 0 ⟨[], [], [("t", .json legacyDocA)]⟩
      = ({ Sys.mk [] [] [("t", .json legacyDocA)] with
             fs := sset [] ("vd_mmkv/" ++ "t") (.json legacyDocA),
             mmkv := sremove [("t", .json legacyDocA)] "t" }, .ok legacyDocA) ∧
    (let sysW : Sys :=
        { Sys.mk [] [] [("t", .json legacyDocA)] with
            fs := sset [] ("vd_mmkv/" ++ "t") (.json legacyDocA) }
     mmkvMigrate "t" (JVal.obj []) ("vd_mmkv/" ++ "t") ⟨[], [], [("t", .json legacyDocA)]⟩
       = { sysW with mmkv := sremove sysW.mmkv "t" }) ∧
    slookup (sremove [("t", FileContent.json legacyDocA)] "t") "t" = none ∧
    mmkvOpen "t" (JVal.obj []) 0
        { Sys.mk [] [] [("t", .json legacyDocA)] with
            fs := sset [] ("vd_mmkv/" ++ "t") (.json legacyDocA),
            mmkv := sremove [("t", .json legacyDocA)] "t" }
      = ({ Sys.mk [] [] [("t", .json legacyDocA)] with
             fs := sset [] ("vd_mmkv/" ++ "t") (.json legacyDocA),
             mmkv := sremove [("t", .json legacyDocA)] "t" }, .ok legacyDocA) :=
  c5_legacy_migration "t" (JVal.obj []) ⟨[], [], [("t", .json legacyDocA)]⟩
    rfl rfl rfl

/-!  ## C8 — name sanitization -/

/-- Whether two consecutive hyphens occur in the characters. -/
def hasDoubleHyphen : List Char → Bool
  | [] => false
  | [_] => false
  | c :: d :: rest => if c = '-' ∧ d = '-' then true else hasDoubleHyphen (d :: rest)

theorem findIllegalAux_none {cs : List Char} {i : Nat}
    (h : findIllegalAux cs i = none) : ∀ c ∈ cs, illegalChar c = false := by
  induction cs generalizing i with
  | nil => intro c hc; simp at hc
  | cons c rest ih =>
    cases hc : illegalChar c with
    | true => simp [findIllegalAux, hc] at h
    | false =>
      intro x hx
      rcases List.mem_cons.mp hx with hx | hx
      · rw [hx]; exact hc
      · exact ih (i := i + 1) (by simpa [findIllegalAux, hc] using h) x hx

theorem collapseHyphens_subset :
    ∀ (cs : List Char) (c : Char), c ∈ collapseHyphens cs → c ∈ cs := by
  intro cs
  induction cs with
  | nil => intro c h; simp [collapseHyphens] at h
  | cons d rest ih =>
    cases rest with
    | nil => intro c h; simpa [collapseHyphens] using h
    | cons e r =>
      intro c h
      by_cases hde : d = '-' ∧ e = '-'
      · rw [collapseHyphens, if_pos hde] at h
        exact List.mem_cons_of_mem d (ih c h)
      · rw [collapseHyphens, if_neg hde] at h
        rcases List.mem_cons.mp h with h | h
        · rw [h]; exact List.mem_cons_self d (e :: r)
        · exact List.mem_cons_of_mem d (ih c h)

theorem collapseHyphens_cons :
    ∀ (rest : List Char) (d : Char), ∃ tl, collapseHyphens (d :: rest) = d :: tl := by
  intro rest
  induction rest with
  | nil => intro d; exact ⟨[], rfl⟩
  | cons e r ih =>
    intro d
    by_cases hde : d = '-' ∧ e = '-'
    · obtain ⟨tl, htl⟩ := ih e
      refine ⟨tl, ?_⟩
      rw [collapseHyphens, if_pos hde, htl, hde.1, hde.2]
    · exact ⟨collapseHyphens (e :: r), by rw [collapseHyphens, if_neg hde]⟩

theorem hasDoubleHyphen_collapseHyphens :
    ∀ cs : List Char, hasDoubleHyphen (collapseHyphens cs) = false := by
  intro cs
  induction cs with
  | nil => rfl
  | cons d rest ih =>
    cases rest with
    | nil => rfl
    | cons e r =>
      by_cases hde : d = '-' ∧ e = '-'
      · rw [collapseHyphens, if_pos hde]
        exact ih
      · rw [collapseHyphens, if_neg hde]
        obtain ⟨tl, htl⟩ := collapseHyphens_cons r e
        rw [htl]
        rw [htl] at ih
        rw [hasDoubleHyphen, if_neg hde]
        exact ih

theorem replaceIllegal_legal (cs : List Char) :
    ∀ c ∈ replaceIllegal cs, illegalChar c = false := by
  intro c hc
  rcases List.mem_map.mp hc with ⟨x, _, hmap⟩
  cases hix : illegalChar x with
  | true => rw [hix] at hmap; simp at hmap; rw [← hmap]; decide
  | false => rw [hix] at hmap; simp at hmap; rw [← hmap]; exact hix

/-- C8: name sanitization is deterministic across repeated calls, and
sanitizing: (a) `getMMKVPath` always leaves the shared regex's
`lastIndex` at `0` (so every call in the running program starts from
`lastIndex = 0` and a repeated call returns the same path); (b) the path
is the fixed prefix plus the sanitized segment; (c) the segment never
contains a character illegal in file paths; (d) when sanitization was
triggered, the segment has no two consecutive filler hyphens. -/
theorem c8_sanitize_deterministic (name : String) (li : Nat) :
    (getMMKVPath li name).1 = 0 ∧
    getMMKVPath ((getMMKVPath li name).1) name = getMMKVPath 0 name ∧
    (getMMKVPath 0 name).2 = "vd_mmkv/" ++ String.mk (mmkvSegment 0 name) ∧
    (∀ c ∈ mmkvSegment 0 name, illegalChar c = false) ∧
    ((findIllegalFrom name.data 0).isSome = true →
      hasDoubleHyphen (mmkvSegment 0 name) = false) := by
  have h1 : (getMMKVPath li name).1 = 0 := by
    cases hfi : findIllegalFrom name.data li <;>
      simp [getMMKVPath, regexTestG, hfi]
  refine ⟨h1, by rw [h1], ?_, ?_, ?_⟩
  · cases hfi : findIllegalFrom name.data 0 <;>
      simp [getMMKVPath, mmkvSegment, regexTestG, hfi]
  · cases hfi : findIllegalFrom name.data 0 with
    | none =>
      intro c hc
      rw [mmkvSegment] at hc
      simp [regexTestG, hfi] at hc
      exact findIllegalAux_none (by simpa [findIllegalFrom] using hfi) c hc
    | some i =>
      intro c hc
      rw [mmkvSegment] at hc
      simp [regexTestG, hfi] at hc
      exact replaceIllegal_legal name.data c
        (collapseHyphens_subset (replaceIllegal name.data) c hc)
  · intro hsome
    cases hfi : findIllegalFrom name.data 0 with
    | none => rw [hfi] at hsome; simp at hsome
    | some i =>
      rw [mmkvSegment]
      simp [regexTestG, hfi]
      exact hasDoubleHyphen_collapseHyphens (replaceIllegal name.data)

/-- C8, witness: applied to the name `"a:b"` (one illegal character) from
the stale regex state `lastIndex = 7`: the exit state is `0` and the
sanitized segment has no double hyphen. -/
theorem c8_sanitize_deterministic_witness :
    (getMMKVPath 7 "a:b").1 = 0 ∧ hasDoubleHyphen (mmkvSegment 0 "a:b") = false :=
  ⟨(c8_sanitize_deterministic "a:b" 7).1,
   (c8_sanitize_deterministic "a:b" 7).2.2.2.2 (by decide)⟩

/-!  ## C9 — sync-adapter pending queue -/

theorem syncFoldl_falsy (ops : List SyncOp) :
    ∀ st : SyncState, (∀ op ∈ ops, op.isRegister = true) →
    jsTruthy st.awaited = false →
    List.foldl syncStep st ops = { st with queue := st.queue ++ registerIds ops } := by
  induction ops with
  | nil => intro st _ _; simp [registerIds]
  | cons op rest ih =>
    intro st hall hf
    cases op with
    | register id =>
      have hrec := ih { st with queue := st.queue ++ [id] }
        (fun o ho => hall o (List.mem_cons_of_mem _ ho)) (by simpa using hf)
      simp [syncStep, hf, registerIds, hrec]
    | resolve v =>
      have := hall (.resolve v) (List.mem_cons_self _ _)
      simp [SyncOp.isRegister] at this

theorem syncFoldl_truthy (ops : List SyncOp) :
    ∀ st : SyncState, (∀ op ∈ ops, op.isRegister = true) →
    jsTruthy st.awaited = true →
    List.foldl syncStep st ops = { st with ran := st.ran ++ registerIds ops } := by
  induction ops with
  | nil => intro st _ _; simp [registerIds]
  | cons op rest ih =>
    intro st hall ht
    cases op with
    | register id =>
      have hrec := ih { st with ran := st.ran ++ [id] }
        (fun o ho => hall o (List.mem_cons_of_mem _ ho)) (by simpa using ht)
      simp [syncStep, ht, registerIds, hrec]
    | resolve v =>
      have := hall (.resolve v) (List.mem_cons_self _ _)
      simp [SyncOp.isRegister] at this

/-- C9: for a `wrapSync` wrapper over a storage session — the resolution
value is an object reference, hence truthy — and any callbacks registered
through the hidden await-ready entry point before and after the
resolution: no callback runs before resolution; when the promise resolves
the queued callbacks are drained exactly once, in enqueue order, followed
by the post-resolution callbacks, each invoked immediately on
registration; post-resolution registrations are never enqueued (the queue
keeps exactly the pre-resolution ids). -/
theorem c9_pending_queue (pre post : List SyncOp) (v : JSVal)
    (hpre : ∀ op ∈ pre, op.isRegister = true)
    (hpost : ∀ op ∈ post, op.isRegister = true)
    (hv : jsTruthy v = true) :
    (syncRun (pre ++ SyncOp.resolve v :: post)).ran
      = registerIds pre ++ registerIds post ∧
    (syncRun pre).ran = [] ∧
    (syncRun (pre ++ SyncOp.resolve v :: post)).queue = registerIds pre := by
  have h1 : syncRun pre = { syncInit with queue := registerIds pre } := by
    simpa [syncInit] using syncFoldl_falsy pre syncInit hpre rfl
  have h2 : syncRun (pre ++ SyncOp.resolve v :: post)
      = List.foldl syncStep (syncStep (syncRun pre) (.resolve v)) post := by
    simp [syncRun, List.foldl_append, List.foldl_cons]
  have h3 : syncStep (syncRun pre) (.resolve v)
      = { awaited := v, queue := registerIds pre, ran := registerIds pre } := by
    rw [h1]; simp [syncStep, syncInit]
  have h4 := syncFoldl_truthy post
    { awaited := v, queue := registerIds pre, ran := registerIds pre } hpost (by simpa)
  rw [h2, h3, h4]
  exact ⟨rfl, by rw [h1]; rfl, rfl⟩

/-- C9, witness: two callbacks registered before resolution and one after;
the ran log is `[1, 2, 3]` in enqueue order and the post-resolution
callback was never enqueued. -/
theorem c9_pending_queue_witness :
    (syncRun ([.register 1, .register 2] ++ SyncOp.resolve (.ref 0) :: [.register 3])).ran
      = registerIds [.register 1, .register 2] ++ registerIds [.register 3] ∧
    (syncRun [.register 1, .register 2]).ran = [] ∧
    (syncRun ([.register 1, .register 2] ++ SyncOp.resolve (.ref 0) :: [.register 3])).queue
      = registerIds [.register 1, .register 2] :=
  c9_pending_queue [.register 1, .register 2] [.register 3] (.ref 0)
    (by decide) (by decide) rfl
